import Mathlib

/-!
Shallow embedding of the speech capture and transcription-quality pipeline
(audio_processing.py, stt_service.py, backend_service.py) and proofs about it.

Python floats are modelled as exact rationals; machine int16 values as
integers with explicit clipping and two's-complement byte encoding.
Transcendental quantities that the source computes with floating point
(the high-pass filter coefficient, the dBFS normalization gain, RMS square
roots) are supplied as oracle function parameters where the claims do not
depend on their values.
-/

/-! ## Text heuristics (stt_service.py lines 262-295) -/

/-- Character class of `_TOKEN_PATTERN = [a-zA-Z0-9çğıöşüÇĞİÖŞÜ]+`
(stt_service.py line 262). -/
def tokenChar (c : Char) : Bool :=
  if ('a' ≤ c ∧ c ≤ 'z') ∨ ('A' ≤ c ∧ c ≤ 'Z') ∨ ('0' ≤ c ∧ c ≤ '9') then true
  else ['ç', 'ğ', 'ı', 'ö', 'ş', 'ü', 'Ç', 'Ğ', 'İ', 'Ö', 'Ş', 'Ü'].contains c

/-- Python `str.lower` restricted to the alphabet the token pattern can see:
ASCII uppercase maps down by 32, the six uppercase Turkish letters map to
their lowercase forms, and dotted capital İ maps to `i` followed by the
combining dot above (two code points, exactly as CPython does). Characters
outside this alphabet are kept unchanged; they are separators either way. -/
def pyLowerChar (c : Char) : List Char :=
  if 'A' ≤ c ∧ c ≤ 'Z' then [Char.ofNat (c.toNat + 32)]
  else if c = 'Ç' then ['ç']
  else if c = 'Ğ' then ['ğ']
  else if c = 'İ' then ['i', '̇']
  else if c = 'Ö' then ['ö']
  else if c = 'Ş' then ['ş']
  else if c = 'Ü' then ['ü']
  else [c]

/-- Python `text.lower()` as a character list. -/
def pyLower (s : String) : List Char :=
  s.data.flatMap pyLowerChar

/-- Accumulator-style splitter: maximal runs of `tokenChar` characters,
the semantics of `_TOKEN_PATTERN.findall`. -/
def splitRunsAux : List Char → List Char → List (List Char)
  | [], cur => if cur = [] then [] else [cur.reverse]
  | c :: rest, cur =>
    if tokenChar c then splitRunsAux rest (c :: cur)
    else if cur = [] then splitRunsAux rest []
    else cur.reverse :: splitRunsAux rest []

/-- The token list `_TOKEN_PATTERN.findall(lower_text)`. -/
def splitRuns (cs : List Char) : List (List Char) :=
  splitRunsAux cs []

/-- Whitespace class of the regex `\s` (modelled over the ASCII whitespace
characters; the strings in this development contain no exotic spaces). -/
def isWsChar (c : Char) : Bool :=
  [' ', '\t', '\n', '\r', '\x0b', '\x0c'].contains c

/-- Word-character class backing the `\b` boundaries of
`_SPLIT_HINT_PATTERN`, modelled over the same alphabet as the token
pattern plus the underscore. -/
def isWordChar (c : Char) : Bool :=
  tokenChar c || c = '_'

/-- Consume the longest run of whitespace. -/
def dropWs : List Char → List Char
  | c :: rest => if isWsChar c then dropWs rest else c :: rest
  | [] => []

/-- Consume `\s+`: at least one whitespace character, then the rest of the
run (the following literal characters are never whitespace, so the greedy
match needs no backtracking). -/
def eatWs : List Char → Option (List Char)
  | c :: rest => if isWsChar c then some (dropWs rest) else none
  | [] => none

/-- Consume an exact literal character sequence. -/
def dropLit : List Char → List Char → Option (List Char)
  | [], cs => some cs
  | p :: ps, c :: cs => if c = p then dropLit ps cs else none
  | _ :: _, [] => none

/-- Match `[iı]p\s+le\s+mantasyon\b` starting at the head of the list
(the leading word boundary is checked by the caller). -/
def hintFrom : List Char → Bool
  | c0 :: 'p' :: rest =>
    if c0 = 'i' ∨ c0 = 'ı' then
      match eatWs rest with
      | none => false
      | some r1 =>
        match dropLit ['l', 'e'] r1 with
        | none => false
        | some r2 =>
          match eatWs r2 with
          | none => false
          | some r3 =>
            match dropLit ['m', 'a', 'n', 't', 'a', 's', 'y', 'o', 'n'] r3 with
            | none => false
            | some [] => true
            | some (d :: _) => !isWordChar d
    else false
  | _ => false

/-- Word boundary `\b` before a word character: start of text, or a
preceding non-word character. -/
def boundaryOk : Option Char → Bool
  | none => true
  | some c => !isWordChar c

/-- Scan every position, tracking the previous character for the leading
word boundary: the semantics of `_SPLIT_HINT_PATTERN.search`. -/
def searchHintAux : Option Char → List Char → Bool
  | _, [] => false
  | prev, c :: rest =>
    (boundaryOk prev && hintFrom (c :: rest)) || searchHintAux (some c) rest

/-- Semantics of `_SPLIT_HINT_PATTERN.search(lower_text)` as a Boolean
(stt_service.py line 263). -/
def searchSplitHint (cs : List Char) : Bool :=
  searchHintAux none cs

/-- Embedding of `_looks_fragmented` (stt_service.py lines 266-277).
The float comparison `short_ratio >= 0.35` is modelled exactly over ℚ. -/
def looks_fragmented (text : String) : Bool :=
  if text = "" then true
  else
    let lower_text := pyLower text
    let tokens := splitRuns lower_text
    if tokens.length < 4 then false
    else
      let short_tokens := tokens.countP (fun t => decide (t.length ≤ 2))
      let short_ratio : ℚ := (short_tokens : ℚ) / ((max 1 tokens.length : ℕ) : ℚ)
      if (35 : ℚ) / 100 ≤ short_ratio then true
      else searchSplitHint lower_text

/-- Embedding of ` _fragment_ratio` (stt_service.py lines 280-285):
1 for token-free text, otherwise the fraction of tokens of length ≤ 2. -/
def fragment_ratio (text : String) : ℚ :=
  let tokens := splitRuns (pyLower text)
  if tokens = [] then 1
  else ((tokens.countP (fun t => decide (t.length ≤ 2))) : ℚ) / ((max 1 tokens.length : ℕ) : ℚ)

/-- Result of one `_run_decode_pass` call (stt_service.py lines 186-219):
the dict `{text, avg_logprob, no_speech_prob, confidence}`. -/
structure DecodePass where
  text : String
  avg_logprob : ℚ
  no_speech_prob : ℚ
  confidence : ℚ
deriving DecidableEq

/-- Embedding of `_decode_quality_score` (stt_service.py lines 288-295):
`confidence - 0.20·looks_fragmented - 0.10·fragment_ratio`. -/
def decode_quality_score (p : DecodePass) : ℚ :=
  p.confidence - (if looks_fragmented p.text then 1/5 else 0)
    - (1/10) * fragment_ratio p.text

/-! ## Two-pass decode policy (stt_service.py lines 135-184)

The recognition engine is an external component: a decode pass is supplied
by an oracle `run_decode_pass : DecodeOptions → DecodePass` standing for
`_run_decode_pass` applied to the fixed wav file, language and prompt. -/

/-- Decode options dict `{beam_size, best_of, temperature, vad_filter}`. -/
structure DecodeOptions where
  beam_size : ℤ
  best_of : ℤ
  temperature : List ℚ
  vad_filter : Bool
deriving DecidableEq

/-- The `retry_decode` dict built at stt_service.py lines 146-151:
beam and best-of raised to at least 5, the three-point temperature ladder,
VAD forced on. -/
def retry_decode_options (first_decode : DecodeOptions) : DecodeOptions :=
  { beam_size := max 5 first_decode.beam_size
    best_of := max 5 first_decode.best_of
    temperature := [0, 1/5, 2/5]
    vad_filter := true }

/-- The `needs_retry` condition of stt_service.py lines 139-143:
`not best["text"] or best["confidence"] < min_conf or _looks_fragmented(...)`. -/
def needs_retry (min_conf : ℚ) (best : DecodePass) : Bool :=
  decide (best.text = "") || decide (best.confidence < min_conf)
    || looks_fragmented best.text

/-- The decode passes actually run and the pass kept, mirroring
stt_service.py lines 136-156. Returns the kept pass together with the list
of options handed to the engine, in order, so that the number of engine
invocations is part of the embedding. -/
def run_two_pass (run_decode_pass : DecodeOptions → DecodePass)
    (first_decode : DecodeOptions) (min_conf : ℚ) (retry_enabled : Bool) :
    DecodePass × List DecodeOptions :=
  let best := run_decode_pass first_decode
  if retry_enabled && needs_retry min_conf best then
    let retry_opts := retry_decode_options first_decode
    let retry := run_decode_pass retry_opts
    if decide (decode_quality_score best ≤ decode_quality_score retry)
        || (decide (best.text = "") && decide (¬ retry.text = "")) then
      (retry, [first_decode, retry_opts])
    else
      (best, [first_decode, retry_opts])
  else
    (best, [first_decode])

/-- Embedding of the `TranscriptionResult` dataclass (stt_service.py
lines 17-28). -/
structure TranscriptionResult where
  text : String
  accepted : Bool
  confidence : ℚ
  avg_logprob : ℚ
  no_speech_prob : ℚ
  latency_sec : ℚ
  duration_audio_sec : ℚ
  model : String
  device : String
  warning : String
deriving DecidableEq

/-- Embedding of `transcribe_audio_bytes` from the first decode pass on
(stt_service.py lines 135-184). The engine oracle, the profile-derived
first decode options, wall-clock latency, audio duration and the loaded
model signature are parameters. `_write_telemetry` (lines 221-245) returns
early when telemetry is disabled and otherwise appends a JSON line with no
exception handler around the filesystem calls, and `transcribe_audio_bytes`
wraps the body in try/finally with no except clause, so a raised telemetry
write error propagates to the caller: the embedding returns `Except.error`
in exactly that case and the built result otherwise. -/
def transcribe_audio_bytes (run_decode_pass : DecodeOptions → DecodePass)
    (first_decode : DecodeOptions) (min_confidence_for_accept : ℚ)
    (retry_on_low_confidence : Bool)
    (telemetry_enabled telemetry_write_fails : Bool)
    (latency duration_audio_sec : ℚ) (model device : String) :
    Except String TranscriptionResult :=
  let best := (run_two_pass run_decode_pass first_decode
      min_confidence_for_accept retry_on_low_confidence).1
  let accepted := decide (¬ best.text = "")
    && decide (min_confidence_for_accept ≤ best.confidence)
  let result : TranscriptionResult :=
    { text := best.text
      accepted := accepted
      confidence := best.confidence
      avg_logprob := best.avg_logprob
      no_speech_prob := best.no_speech_prob
      latency_sec := latency
      duration_audio_sec := duration_audio_sec
      model := model
      device := device
      warning := if accepted then "" else "Dusuk guvenli sonuc, lutfen tekrar deneyin." }
  if telemetry_enabled && telemetry_write_fails then
    Except.error "telemetry write failed"
  else
    Except.ok result

/-! ## Control protocol (backend_service.py lines 66-89 and 296-304) -/

/-- JSON values, as far as the protocol payloads need them. -/
inductive JValue where
  | null : JValue
  | bool (b : Bool) : JValue
  | num (q : ℚ) : JValue
  | str (s : String) : JValue
  | obj (fields : List (String × JValue)) : JValue

/-- Python `payload.get(key)` on a parsed JSON object: the value under the
key, `None` when absent. -/
def dict_get (v : JValue) (key : String) : JValue :=
  match v with
  | JValue.obj fields =>
    match fields.find? (fun kv => kv.1 == key) with
    | some kv => kv.2
    | none => JValue.null
  | _ => JValue.null

/-- The outbound payload built by `respond` (backend_service.py
lines 296-304): the dict literal always carries all five keys, so an ok
response still holds `"error": null` and an error response `"result": null`. -/
def respond (req_id : JValue) (ok : Bool) (result : JValue) (error : JValue) : JValue :=
  JValue.obj
    [("type", JValue.str "response"), ("id", req_id), ("ok", JValue.bool ok),
     ("result", result), ("error", error)]

/-- Embedding of `_handle_request` (backend_service.py lines 66-89),
returning the list of lines written, in order. The five stateful methods
are delegated to an oracle `do_method` standing for the corresponding
`BackendService` calls (result value, or the exception message they raise);
`ping` and the unknown-method `ValueError` are in the code itself. Every
branch writes exactly one response line. -/
def handle_request (do_method : String → JValue → Except String JValue)
    (payload : JValue) : List JValue :=
  let req_id := dict_get payload "id"
  let params := dict_get payload "params"
  let outcome : Except String JValue :=
    match dict_get payload "method" with
    | JValue.str "ping" => Except.ok (JValue.obj [("pong", JValue.bool true)])
    | JValue.str "start_listening" => do_method "start_listening" params
    | JValue.str "stop_listening" => do_method "stop_listening" params
    | JValue.str "get_config" => do_method "get_config" params
    | JValue.str "update_config" => do_method "update_config" params
    | JValue.str "shutdown" => do_method "shutdown" params
    | _ => Except.error "Unknown method"
  match outcome with
  | Except.ok result => [respond req_id true result JValue.null]
  | Except.error msg =>
    [respond req_id false JValue.null
      (JValue.obj [("code", JValue.str "request_failed"), ("message", JValue.str msg)])]

/-- Key list of a JSON object. -/
def jsonKeys (v : JValue) : List String :=
  match v with
  | JValue.obj fields => fields.map (fun kv => kv.1)
  | _ => []

/-- The request `{"id":1,"method":"ping"}`. -/
def pingRequest : JValue :=
  JValue.obj [("id", JValue.num 1), ("method", JValue.str "ping")]

/-- Method oracle used to close the protocol theorems; the ping branch
never consults it. -/
def noMethods : String → JValue → Except String JValue :=
  fun _ _ => Except.error "unused"

/-! ## Adaptive recorder (backend_service.py lines 209-266)

The chunk source, the stop event polls and the RMS computation (a floating
point square root in `get_rms`) are oracles; everything else — the
calibration bookkeeping, thresholds, counters and the loop bounds — is
embedded. `np.percentile` with the default linear interpolation is exact
rational arithmetic and is embedded directly. -/

/-- Python `int(q)` on a float: truncation toward zero. -/
def py_int (q : ℚ) : ℤ :=
  if 0 ≤ q then ⌊q⌋ else -⌊-q⌋

/-- Insert into a sorted rational list. -/
def insertSorted (x : ℚ) : List ℚ → List ℚ
  | [] => [x]
  | y :: ys => if x ≤ y then x :: y :: ys else y :: insertSorted x ys

/-- Insertion sort for rationals. -/
def sortQ : List ℚ → List ℚ
  | [] => []
  | x :: xs => insertSorted x (sortQ xs)

/-- Exact embedding of `np.percentile(values, q)` with the default linear
interpolation; the call sites guard against the empty list. -/
def np_percentile (values : List ℚ) (q : ℚ) : ℚ :=
  let sorted := sortQ values
  let n := sorted.length
  if n = 0 then 0
  else
    let pos : ℚ := (q / 100) * ((n : ℚ) - 1)
    let k : ℕ := (⌊pos⌋).toNat
    let frac : ℚ := pos - (k : ℚ)
    let lo := sorted.getD k 0
    let hi := sorted.getD (min (k + 1) (n - 1)) 0
    lo + frac * (hi - lo)

/-- Configuration fields `_record_audio` reads. -/
structure RecordConfig where
  silence_duration : ℚ
  max_record_seconds : ℚ
  silence_threshold : ℤ
  min_silence_threshold : ℤ
  silence_adaptive_multiplier : ℚ
  silence_calibration_seconds : ℚ

/-- Sample rate constant of backend_service.py line 23. -/
def SAMPLE_RATE : ℕ := 16000

/-- Chunk size constant of backend_service.py line 25. -/
def CHUNK : ℕ := 1024

/-- Mutable loop state of `_record_audio`. -/
structure RecState where
  frames : List (List ℤ)
  silence_counter : ℕ
  calibrated_threshold : ℤ
  calibration_values : List ℚ
  has_speech : Bool

/-- One iteration of the capture loop body (backend_service.py
lines 242-257): read a chunk, append it, run the calibration window
bookkeeping, then the speech/silence bookkeeping against the (possibly
just recalibrated) threshold. -/
def record_step (read : ℕ → List ℤ) (rms_of : List ℤ → ℚ) (cfg : RecordConfig)
    (calibration_chunks : ℤ) (idx : ℕ) (st : RecState) : RecState :=
  let chunk := read idx
  let frames := st.frames ++ [chunk]
  let rms := rms_of chunk
  let cal :=
    if (idx : ℤ) < calibration_chunks ∧ st.has_speech = false then
      let cv :=
        if rms < (cfg.silence_threshold : ℚ) * (12/10) then
          st.calibration_values ++ [rms]
        else st.calibration_values
      let ct :=
        if cv = [] then st.calibrated_threshold
        else
          py_int (max ((cfg.min_silence_threshold : ℚ))
            (np_percentile cv 90 * cfg.silence_adaptive_multiplier))
      (cv, ct)
    else (st.calibration_values, st.calibrated_threshold)
  { frames := frames
    silence_counter := if (cal.2 : ℚ) < rms then 0 else st.silence_counter + 1
    calibrated_threshold := cal.2
    calibration_values := cal.1
    has_speech := if (cal.2 : ℚ) < rms then true else st.has_speech }

/-- The `for idx in range(max_chunks)` loop with its two break points: the
stop-event poll before reading, and the trailing-silence cutoff after the
bookkeeping. The fuel is the number of loop indices left. -/
def record_loop (read : ℕ → List ℤ) (rms_of : List ℤ → ℚ) (stop_at : ℕ → Bool)
    (cfg : RecordConfig) (calibration_chunks max_silence_frames : ℤ) :
    ℕ → ℕ → RecState → RecState
  | 0, _, st => st
  | Nat.succ fuel, idx, st =>
    if stop_at idx then st
    else
      let st1 := record_step read rms_of cfg calibration_chunks idx st
      if st1.has_speech = true ∧ max_silence_frames ≤ (st1.silence_counter : ℤ) then st1
      else record_loop read rms_of stop_at cfg calibration_chunks max_silence_frames
        fuel (idx + 1) st1

/-- Embedding of `_record_audio` (backend_service.py lines 209-266),
returning the chunks read. `int()` on the nonnegative configured products
is truncation toward zero, and `range` of a nonpositive bound is empty,
hence `Int.toNat`. -/
def record_audio (read : ℕ → List ℤ) (rms_of : List ℤ → ℚ) (stop_at : ℕ → Bool)
    (cfg : RecordConfig) : List (List ℤ) :=
  let max_silence_frames := py_int (cfg.silence_duration * (SAMPLE_RATE : ℚ) / (CHUNK : ℚ))
  let max_chunks := (py_int (cfg.max_record_seconds * (SAMPLE_RATE : ℚ) / (CHUNK : ℚ))).toNat
  let calibration_chunks :=
    max 1 (py_int (cfg.silence_calibration_seconds * (SAMPLE_RATE : ℚ) / (CHUNK : ℚ)))
  (record_loop read rms_of stop_at cfg calibration_chunks max_silence_frames
    max_chunks 0
    { frames := [], silence_counter := 0
      calibrated_threshold := cfg.silence_threshold
      calibration_values := [], has_speech := false }).frames

/-! ## Signal conditioning (audio_processing.py)

Bytes are lists of naturals below 256; int16 samples are integers; the
float32 processing domain is ℚ. The high-pass coefficient
`α = RC/(RC+dt)` with `RC = 1/(2π·cutoff)` and the normalization gain
`10^((target − current_dbfs)/20)` are transcendental, so they enter as
oracles `alpha_of sample_rate cutoff` and `gain_of target mean_square`;
every claim proved here holds for all values of these oracles. -/

/-- Embedding of `bytes_to_int16` (audio_processing.py lines 12-13):
`np.frombuffer(audio_bytes, dtype=np.int16)` pairs consecutive bytes
little-endian and reads them as two's-complement 16-bit integers
(`frombuffer` rejects an odd byte count; the trailing byte case is
unreachable at the call sites proved about). -/
def bytes_to_int16 : List ℕ → List ℤ
  | lo :: hi :: rest =>
    (if lo + 256 * hi < 32768 then ((lo + 256 * hi : ℕ) : ℤ)
     else ((lo + 256 * hi : ℕ) : ℤ) - 65536) :: bytes_to_int16 rest
  | _ => []

/-- Embedding of `int16_to_bytes` (audio_processing.py lines 15-17):
clip to [-32768, 32767], truncate toward zero (`astype(np.int16)` on a
float array), and serialize little-endian two's-complement. -/
def int16_to_bytes (xs : List ℚ) : List ℕ :=
  xs.flatMap (fun v =>
    let c : ℤ := py_int (max (-32768) (min 32767 v))
    let u : ℤ := if c < 0 then c + 65536 else c
    [(u % 256).toNat, (u / 256).toNat])

/-- The strictly sequential recurrence of `highpass_filter`
(audio_processing.py lines 40-47): `prev_y` starts at 0, `prev_x` at the
first sample, and each step emits `α·(prev_y + x - prev_x)`. -/
def hp_loop (alpha : ℚ) : ℚ → ℚ → List ℚ → List ℚ
  | _, _, [] => []
  | prev_x, prev_y, cur :: rest =>
    let y := alpha * (prev_y + cur - prev_x)
    y :: hp_loop alpha cur y rest

/-- Embedding of `highpass_filter` (audio_processing.py lines 19-49):
a nonpositive cutoff returns the input unchanged. -/
def highpass_filter (alpha_of : ℚ → ℚ → ℚ) (audio_data : List ℚ)
    (sample_rate cutoff_hz : ℚ) : List ℚ :=
  if cutoff_hz ≤ 0 then audio_data
  else
    match audio_data with
    | [] => []
    | x0 :: _ => hp_loop (alpha_of sample_rate cutoff_hz) x0 0 audio_data

/-- Mean of squares of the samples, the square of the source's
`rms = sqrt(mean(x*x))`; comparisons of the nonnegative rms against a
nonnegative bound are made on squares. -/
def mean_square (x : List ℚ) : ℚ :=
  (x.map (fun v => v * v)).sum / (x.length : ℚ)

/-- Embedding of `normalize_to_dbfs` (audio_processing.py lines 51-71):
empty input unchanged; `rms < 1e-6` — equivalently mean square below
`1e-12` — short-circuits; otherwise every sample is scaled by the gain,
which is the transcendental `10^((target − 20·log10(rms/32768))/20)` and
enters through the oracle. -/
def normalize_to_dbfs (gain_of : ℚ → ℚ → ℚ) (audio_data : List ℚ)
    (target_dbfs : ℚ) : List ℚ :=
  if audio_data = [] then audio_data
  else if mean_square audio_data < 1 / 10 ^ 12 then audio_data
  else audio_data.map (fun v => v * gain_of target_dbfs (mean_square audio_data))

/-- Embedding of `suppress_noise` (audio_processing.py lines 73-88):
percentile-based gate over the first quarter second. -/
def suppress_noise (audio_data : List ℚ) (sample_rate : ℚ) : List ℚ :=
  if audio_data = [] then audio_data
  else
    let head := audio_data.take (max (py_int ((1/4) * sample_rate)).toNat 1)
    let floor_v := np_percentile (head.map (fun v => |v|)) 70
    let threshold := max 40 (floor_v * (3/2))
    audio_data.map (fun v => if |v| < threshold then 0 else v)

/-- Embedding of `preprocess_audio_bytes` (audio_processing.py
lines 90-115): decode, cast to the float domain, high-pass, optional
noise gate, normalize, re-encode. -/
def preprocess_audio_bytes (alpha_of gain_of : ℚ → ℚ → ℚ)
    (audio_bytes : List ℕ) (sample_rate highpass_hz normalize_target_dbfs : ℚ)
    (noise_suppression : Bool) : List ℕ :=
  let int16_data := bytes_to_int16 audio_bytes
  let float_data : List ℚ := int16_data.map Int.cast
  let processed := highpass_filter alpha_of float_data sample_rate highpass_hz
  let processed := if noise_suppression then suppress_noise processed sample_rate else processed
  let processed := normalize_to_dbfs gain_of processed normalize_target_dbfs
  int16_to_bytes processed

/-! ## Capture-cycle worker and listening state (backend_service.py
lines 91-207)

The worker body's fallible steps — recording, preprocessing,
transcription — are oracles returning a value or a raised exception
message. Event payload details that no claim inspects are elided to the
event name plus the status string; `_safe_beep` and `_paste_text` swallow
their own exceptions and raise nothing. -/

/-- Events the worker writes, by name; `status_changed` keeps its status. -/
inductive WEvent where
  | statusChanged (status : String) : WEvent
  | runtimeError (message : String) : WEvent
  | transcriptReady : WEvent
  | metricsEvent : WEvent
deriving DecidableEq

/-- The listening state guarded by `state_lock`: the `is_listening` flag
and the `stop_requested` event. -/
structure SvcState where
  is_listening : Bool
  stop_requested : Bool
deriving DecidableEq

/-- Environment of one `_listen_worker` run: configuration fields read,
oracle outcomes of the fallible steps, and the paste outcome. -/
structure WorkerEnv where
  min_record_seconds : ℚ
  record : Except String ℚ
  preprocess : Except String Unit
  transcribe : Except String TranscriptionResult
  allow_low_confidence_paste : Bool
  paste_min_confidence_floor : ℚ
  paste : Bool × String

/-- The `try` body of `_listen_worker` (backend_service.py lines 118-191):
the events written, and the exception message if one escapes the body. -/
def listen_body (env : WorkerEnv) : List WEvent × Option String :=
  let evs0 := [WEvent.statusChanged "listening"]
  match env.record with
  | Except.error e => (evs0, some e)
  | Except.ok duration =>
    if duration < max (12/100) env.min_record_seconds then
      (evs0 ++ [WEvent.runtimeError "Recording too short", WEvent.statusChanged "ready"],
       none)
    else
      let evs1 := evs0 ++ [WEvent.statusChanged "transcribing"]
      match env.preprocess with
      | Except.error e => (evs1, some e)
      | Except.ok _ =>
        match env.transcribe with
        | Except.error e => (evs1, some e)
        | Except.ok result =>
          if result.text = "" then
            (evs1 ++ [WEvent.statusChanged "low_conf",
              WEvent.runtimeError "No speech detected"], none)
          else
            let can_paste := result.accepted
              || (env.allow_low_confidence_paste
                  && decide (env.paste_min_confidence_floor ≤ result.confidence))
            let pasteOut := if can_paste then env.paste else (false, "")
            let evs2 := evs1 ++
              (if pasteOut.1 = false ∧ ¬ pasteOut.2 = "" then
                [WEvent.runtimeError pasteOut.2] else [])
            let evs3 := evs2 ++ [WEvent.transcriptReady, WEvent.metricsEvent]
            let finalStatus :=
              if result.accepted && pasteOut.1 then "ready" else "low_conf"
            (evs3 ++ [WEvent.statusChanged finalStatus], none)

/-- Embedding of `_listen_worker` (backend_service.py lines 116-207):
the body, the `except` clause turning an escaped exception into a
`runtime_error` plus an error status, and the `finally` clause that always
clears `is_listening` and `stop_requested` under the lock and emits the
final ready status. -/
def listen_worker (env : WorkerEnv) (_s : SvcState) : List WEvent × SvcState :=
  let body := listen_body env
  let evs :=
    match body.2 with
    | some e => body.1 ++ [WEvent.runtimeError e, WEvent.statusChanged "error"]
    | none => body.1
  (evs ++ [WEvent.statusChanged "ready"],
   { is_listening := false, stop_requested := false })

/-- The serialized mutations of the listening state: `start_listening`
(backend_service.py lines 91-99) checks the flag and, when idle, sets it
and clears the stop event before spawning the worker; `stop_listening`
(lines 101-103) sets the stop event; the worker's cleanup (lines 203-207)
clears both. -/
inductive StateAction where
  | start : StateAction
  | stop : StateAction
  | workerEnd : StateAction
deriving DecidableEq

/-- Effect of one serialized action on the listening state. -/
def state_step (s : SvcState) : StateAction → SvcState
  | StateAction.start =>
    if s.is_listening then s
    else { is_listening := true, stop_requested := false }
  | StateAction.stop => { s with stop_requested := true }
  | StateAction.workerEnd => { is_listening := false, stop_requested := false }

/-- Run a serialized sequence of state actions. -/
def run_actions (s : SvcState) (acts : List StateAction) : SvcState :=
  acts.foldl state_step s

/-! ## Concrete instances used to close theorems with hypotheses -/

/-- The `balanced` profile's decode options (config_manager.py lines 86-91). -/
def balancedOpts : DecodeOptions :=
  { beam_size := 3, best_of := 3, temperature := [0, 1/5], vad_filter := true }

/-- A clean confident pass: four long tokens, confidence 0.9. -/
def cleanPass : DecodePass :=
  { text := "merhaba dunya kanka tamamdir", avg_logprob := -1/10
    no_speech_prob := 1/10, confidence := 9/10 }

/-- A first pass whose confidence 0.2 sits below the 0.35 floor. -/
def lowConfPass : DecodePass :=
  { text := "merhaba dunya kanka tamamdir", avg_logprob := -2
    no_speech_prob := 7/20, confidence := 1/5 }

/-- An engine oracle answering the balanced options with the low-confidence
pass and the raised-effort retry options with the clean pass. -/
def twoPassOracle : DecodeOptions → DecodePass :=
  fun opts => if opts.beam_size = 3 then lowConfPass else cleanPass

/-- A recorder configuration with the default thresholds and a one-second
hard cap (so the cap is 15 chunks of 1024 samples at 16 kHz). -/
def shortCapConfig : RecordConfig :=
  { silence_duration := 12/10, max_record_seconds := 1
    silence_threshold := 500, min_silence_threshold := 200
    silence_adaptive_multiplier := 5/2, silence_calibration_seconds := 1/4 }

/-- A chunk source that is loud forever: every chunk's RMS oracle value is
one million, far above any reachable threshold. -/
def loudRms : List ℤ → ℚ :=
  fun _ => 1000000

/-- The constant chunk source used with `loudRms`. -/
def constChunk : ℕ → List ℤ :=
  fun _ => [1000]

/-- A stop oracle that is never set. -/
def neverStop : ℕ → Bool :=
  fun _ => false

/-! ## Helper lemmas -/

/-- The tokenized ratio of short tokens always lies in the unit interval. -/
theorem fragment_ratio_nonneg (t : String) : 0 ≤ fragment_ratio t := by
  unfold fragment_ratio
  dsimp only
  split
  · norm_num
  · positivity

/-- Upper bound of the short-token ratio. -/
theorem fragment_ratio_le_one (t : String) : fragment_ratio t ≤ 1 := by
  unfold fragment_ratio
  dsimp only
  split
  · norm_num
  · rename_i hne
    rw [div_le_one (by positivity)]
    have hle : (splitRuns (pyLower t)).countP (fun tok => decide (tok.length ≤ 2))
        ≤ (splitRuns (pyLower t)).length := List.countP_le_length _
    have hmax : (splitRuns (pyLower t)).length ≤ max 1 (splitRuns (pyLower t)).length :=
      le_max_right _ _
    exact_mod_cast le_trans hle hmax

/-- Appending one chunk: the frames list of a step grows by the chunk read. -/
theorem record_step_frames (read : ℕ → List ℤ) (rms_of : List ℤ → ℚ)
    (cfg : RecordConfig) (cc : ℤ) (idx : ℕ) (st : RecState) :
    (record_step read rms_of cfg cc idx st).frames = st.frames ++ [read idx] := by
  rfl

/-- The loop reads at most `fuel` further chunks. -/
theorem record_loop_frames_le (read : ℕ → List ℤ) (rms_of : List ℤ → ℚ)
    (stop_at : ℕ → Bool) (cfg : RecordConfig) (cc msf : ℤ) :
    ∀ (fuel idx : ℕ) (st : RecState),
      (record_loop read rms_of stop_at cfg cc msf fuel idx st).frames.length
        ≤ st.frames.length + fuel := by
  intro fuel
  induction fuel with
  | zero => intro idx st; simp [record_loop]
  | succ n ih =>
    intro idx st
    rw [record_loop]
    split
    · omega
    · dsimp only
      split
      · rename_i h1 _
        have := record_step_frames read rms_of cfg cc idx st
        simp only [this] at *
        simp only [List.length_append, List.length_singleton]
        omega
      · have hstep := record_step_frames read rms_of cfg cc idx st
        have hrec := ih (idx + 1) (record_step read rms_of cfg cc idx st)
        simp only [hstep, List.length_append, List.length_singleton] at hrec
        omega

/-! ## Claim C3 -/

/-- C3 counterexample: the claim quantifies over every input text with
fewer than 4 alphanumeric tokens, but the empty text has 0 tokens and
`_looks_fragmented` still returns true through its leading emptiness
guard. -/
theorem empty_text_fragmented_with_few_tokens :
    looks_fragmented "" = true ∧ (splitRuns (pyLower "")).length < 4 := by
  constructor
  · decide
  · decide

/-- C3 amended: for every non-empty input text whose count of alphanumeric
tokens is fewer than 4, `_looks_fragmented` returns false. -/
theorem few_tokens_not_fragmented (t : String) (h1 : ¬ t = "")
    (h2 : (splitRuns (pyLower t)).length < 4) :
    looks_fragmented t = false := by
  unfold looks_fragmented
  rw [if_neg h1]
  dsimp only
  rw [if_pos h2]

/-- C3 witness: the two-token text `ab cd` is non-empty, has fewer than 4
tokens, and is not flagged. -/
theorem few_tokens_not_fragmented_witness :
    ¬ ("ab cd" = "") ∧ (splitRuns (pyLower "ab cd")).length < 4 ∧
      looks_fragmented "ab cd" = false :=
  ⟨by decide, by decide, few_tokens_not_fragmented "ab cd" (by decide) (by decide)⟩

/-! ## Concrete evaluations of the fragmentation heuristics

Rational arithmetic does not reduce inside `decide`, so concrete
evaluations split the token-level computation (decidable) from the ℚ
comparison (closed by `norm_num`). -/

/-- Unfolding of `looks_fragmented` past its emptiness and token-count
guards, leaving the ratio test and the split-hint fallback. -/
theorem looks_fragmented_cases (t : String) (h0 : ¬ t = "")
    (h4 : ¬ (splitRuns (pyLower t)).length < 4) :
    looks_fragmented t =
      (if (35 : ℚ) / 100 ≤
          (((splitRuns (pyLower t)).countP (fun tok => decide (tok.length ≤ 2)) : ℕ) : ℚ)
            / ((max 1 (splitRuns (pyLower t)).length : ℕ) : ℚ)
       then true else searchSplitHint (pyLower t)) := by
  unfold looks_fragmented
  rw [if_neg h0]
  dsimp only
  rw [if_neg h4]

/-- Unfolding of ` _fragment_ratio` on texts with at least one token. -/
theorem fragment_ratio_of_tokens (t : String) (h : ¬ splitRuns (pyLower t) = []) :
    fragment_ratio t =
      (((splitRuns (pyLower t)).countP (fun tok => decide (tok.length ≤ 2)) : ℕ) : ℚ)
        / ((max 1 (splitRuns (pyLower t)).length : ℕ) : ℚ) := by
  unfold fragment_ratio
  dsimp only
  rw [if_neg h]

/-- The nine-token split-hint text is flagged: its short-token ratio 2/9 is
under 0.35, but the `[iı]p\s+le\s+mantasyon\b` artifact matches. -/
theorem hint_text_fragmented :
    looks_fragmented "birinci ikinci ucuncu dorduncu besinci altinci ip le mantasyon" = true := by
  rw [looks_fragmented_cases _ (by decide) (by decide)]
  rw [if_neg]
  · decide
  · rw [show (splitRuns (pyLower "birinci ikinci ucuncu dorduncu besinci altinci ip le mantasyon")).countP
          (fun tok => decide (tok.length ≤ 2)) = 2 from by decide,
        show max 1 (splitRuns (pyLower "birinci ikinci ucuncu dorduncu besinci altinci ip le mantasyon")).length = 9
          from by decide]
    norm_num

/-- Short-token ratio of the split-hint text. -/
theorem hint_text_ratio :
    fragment_ratio "birinci ikinci ucuncu dorduncu besinci altinci ip le mantasyon" = 2/9 := by
  rw [fragment_ratio_of_tokens _ (by decide)]
  rw [show (splitRuns (pyLower "birinci ikinci ucuncu dorduncu besinci altinci ip le mantasyon")).countP
        (fun tok => decide (tok.length ≤ 2)) = 2 from by decide,
      show max 1 (splitRuns (pyLower "birinci ikinci ucuncu dorduncu besinci altinci ip le mantasyon")).length = 9
        from by decide]
  norm_num

/-- The six-token text of ratio 1/3 is not flagged: 1/3 < 0.35 and no
split-hint match. -/
theorem third_ratio_text_not_fragmented :
    looks_fragmented "aa bb cccc dddd eeee ffff" = false := by
  rw [looks_fragmented_cases _ (by decide) (by decide)]
  rw [if_neg]
  · decide
  · rw [show (splitRuns (pyLower "aa bb cccc dddd eeee ffff")).countP
          (fun tok => decide (tok.length ≤ 2)) = 2 from by decide,
        show max 1 (splitRuns (pyLower "aa bb cccc dddd eeee ffff")).length = 6 from by decide]
    norm_num

/-- Short-token ratio of the six-token text. -/
theorem third_ratio_text_ratio :
    fragment_ratio "aa bb cccc dddd eeee ffff" = 1/3 := by
  rw [fragment_ratio_of_tokens _ (by decide)]
  rw [show (splitRuns (pyLower "aa bb cccc dddd eeee ffff")).countP
        (fun tok => decide (tok.length ≤ 2)) = 2 from by decide,
      show max 1 (splitRuns (pyLower "aa bb cccc dddd eeee ffff")).length = 6 from by decide]
  norm_num

/-- A four-long-token text is not flagged and has ratio 0. -/
theorem long_tokens_text_not_fragmented :
    looks_fragmented "cccc dddd eeee ffff" = false := by
  rw [looks_fragmented_cases _ (by decide) (by decide)]
  rw [if_neg]
  · decide
  · rw [show (splitRuns (pyLower "cccc dddd eeee ffff")).countP
          (fun tok => decide (tok.length ≤ 2)) = 0 from by decide,
        show max 1 (splitRuns (pyLower "cccc dddd eeee ffff")).length = 4 from by decide]
    norm_num

/-- Short-token ratio of the four-long-token text. -/
theorem long_tokens_text_ratio :
    fragment_ratio "cccc dddd eeee ffff" = 0 := by
  rw [fragment_ratio_of_tokens _ (by decide)]
  rw [show (splitRuns (pyLower "cccc dddd eeee ffff")).countP
        (fun tok => decide (tok.length ≤ 2)) = 0 from by decide,
      show max 1 (splitRuns (pyLower "cccc dddd eeee ffff")).length = 4 from by decide]
  norm_num

/-- A text of four tokens with three short ones is flagged by ratio. -/
theorem short_heavy_text_fragmented :
    looks_fragmented "a b c longword" = true := by
  rw [looks_fragmented_cases _ (by decide) (by decide)]
  rw [if_pos]
  rw [show (splitRuns (pyLower "a b c longword")).countP
        (fun tok => decide (tok.length ≤ 2)) = 3 from by decide,
      show max 1 (splitRuns (pyLower "a b c longword")).length = 4 from by decide]
  norm_num

/-- The clean pass text has four long tokens and is not flagged. -/
theorem clean_text_not_fragmented :
    looks_fragmented "merhaba dunya kanka tamamdir" = false := by
  rw [looks_fragmented_cases _ (by decide) (by decide)]
  rw [if_neg]
  · decide
  · rw [show (splitRuns (pyLower "merhaba dunya kanka tamamdir")).countP
          (fun tok => decide (tok.length ≤ 2)) = 0 from by decide,
        show max 1 (splitRuns (pyLower "merhaba dunya kanka tamamdir")).length = 4 from by decide]
    norm_num

/-! ## Claim C8 -/

/-- C8 counterexample: with confidence held fixed at 1, the quality score
is not monotonically non-increasing in `fragment_ratio` across texts. The
first text has the smaller short-token ratio (2/9) but is flagged through
the split-hint pattern, so it scores strictly lower than the second text,
whose ratio is larger (1/3) but which is unflagged. -/
theorem quality_score_not_monotone_in_ratio :
    fragment_ratio "birinci ikinci ucuncu dorduncu besinci altinci ip le mantasyon"
        ≤ fragment_ratio "aa bb cccc dddd eeee ffff"
      ∧ ¬ (decode_quality_score
            { text := "aa bb cccc dddd eeee ffff"
              avg_logprob := -2, no_speech_prob := 7/20, confidence := 1 }
          ≤ decode_quality_score
            { text := "birinci ikinci ucuncu dorduncu besinci altinci ip le mantasyon"
              avg_logprob := -2, no_speech_prob := 7/20, confidence := 1 }) := by
  constructor
  · rw [hint_text_ratio, third_ratio_text_ratio]
    norm_num
  · unfold decode_quality_score
    dsimp only
    rw [hint_text_ratio, third_ratio_text_ratio,
      hint_text_fragmented, third_ratio_text_not_fragmented]
    norm_num

/-- C8 amended: holding confidence and the `looks_fragmented` flag fixed,
the decode quality score is monotonically non-increasing in
`fragment_ratio`; and for any two texts where `looks_fragmented` flips
from false to true at equal confidence, the flagged text's quality score
is strictly lower than the unflagged text's. -/
theorem quality_score_monotonicity (p1 p2 : DecodePass)
    (hconf : p1.confidence = p2.confidence) :
    (looks_fragmented p1.text = looks_fragmented p2.text →
      fragment_ratio p1.text ≤ fragment_ratio p2.text →
      decode_quality_score p2 ≤ decode_quality_score p1)
    ∧ (looks_fragmented p1.text = false → looks_fragmented p2.text = true →
      decode_quality_score p2 < decode_quality_score p1) := by
  constructor
  · intro hflag hratio
    unfold decode_quality_score
    rw [hconf, hflag]
    have h110 : (0:ℚ) ≤ 1/10 := by norm_num
    have := mul_le_mul_of_nonneg_left hratio h110
    linarith
  · intro hf1 hf2
    have e1 : (if looks_fragmented p1.text then (1:ℚ)/5 else 0) = 0 := by
      rw [hf1]; simp
    have e2 : (if looks_fragmented p2.text then (1:ℚ)/5 else 0) = 1/5 := by
      rw [hf2]; simp
    unfold decode_quality_score
    rw [hconf, e1, e2]
    have hr1 : fragment_ratio p1.text ≤ 1 := fragment_ratio_le_one p1.text
    have hr2 : 0 ≤ fragment_ratio p2.text := fragment_ratio_nonneg p2.text
    linarith

/-- C8 witness: the amended theorem applied at concrete passes of
confidence 1/2 — the flip clause on a ratio-flagged four-token text
against an unflagged one, and the monotone clause on two unflagged texts
of ratios 0 and 1/3. -/
theorem quality_score_monotonicity_witness :
    decode_quality_score
        { text := "a b c longword", avg_logprob := 0, no_speech_prob := 0, confidence := 1/2 }
      < decode_quality_score
        { text := "cccc dddd eeee ffff", avg_logprob := 0, no_speech_prob := 0, confidence := 1/2 }
    ∧ decode_quality_score
        { text := "aa bb cccc dddd eeee ffff", avg_logprob := 0, no_speech_prob := 0, confidence := 1/2 }
      ≤ decode_quality_score
        { text := "cccc dddd eeee ffff", avg_logprob := 0, no_speech_prob := 0, confidence := 1/2 } :=
  ⟨(quality_score_monotonicity
      { text := "cccc dddd eeee ffff", avg_logprob := 0, no_speech_prob := 0, confidence := 1/2 }
      { text := "a b c longword", avg_logprob := 0, no_speech_prob := 0, confidence := 1/2 }
      rfl).2 long_tokens_text_not_fragmented short_heavy_text_fragmented,
   (quality_score_monotonicity
      { text := "cccc dddd eeee ffff", avg_logprob := 0, no_speech_prob := 0, confidence := 1/2 }
      { text := "aa bb cccc dddd eeee ffff", avg_logprob := 0, no_speech_prob := 0, confidence := 1/2 }
      rfl).1
     (by rw [long_tokens_text_not_fragmented, third_ratio_text_not_fragmented])
     (by rw [long_tokens_text_ratio, third_ratio_text_ratio]; norm_num)⟩

/-! ## Claim C2 -/

/-- C2: whenever retries are enabled and the first pass needs a retry
(empty text, confidence below the minimum, or looks-fragmented text),
exactly one second pass runs — the invocation list is precisely the first
options followed by the retry options, whose beam and best-of are at least
5, whose temperature ladder is [0.0, 0.2, 0.4] and whose VAD is on — and
the retry is kept if and only if its quality score is at least the first
pass's or the first pass had no text while the retry does; otherwise the
first pass is kept. -/
theorem two_pass_retry_policy (run_decode_pass : DecodeOptions → DecodePass)
    (first_decode : DecodeOptions) (min_conf : ℚ)
    (h : needs_retry min_conf (run_decode_pass first_decode) = true) :
    (run_two_pass run_decode_pass first_decode min_conf true).2
        = [first_decode, retry_decode_options first_decode]
      ∧ 5 ≤ (retry_decode_options first_decode).beam_size
      ∧ 5 ≤ (retry_decode_options first_decode).best_of
      ∧ (retry_decode_options first_decode).temperature = [0, 1/5, 2/5]
      ∧ (retry_decode_options first_decode).vad_filter = true
      ∧ ((run_two_pass run_decode_pass first_decode min_conf true).1
            = run_decode_pass (retry_decode_options first_decode)
          ↔ decode_quality_score (run_decode_pass first_decode)
              ≤ decode_quality_score (run_decode_pass (retry_decode_options first_decode))
            ∨ ((run_decode_pass first_decode).text = ""
               ∧ ¬ (run_decode_pass (retry_decode_options first_decode)).text = ""))
      ∧ (¬ (decode_quality_score (run_decode_pass first_decode)
              ≤ decode_quality_score (run_decode_pass (retry_decode_options first_decode))
            ∨ ((run_decode_pass first_decode).text = ""
               ∧ ¬ (run_decode_pass (retry_decode_options first_decode)).text = ""))
          → (run_two_pass run_decode_pass first_decode min_conf true).1
              = run_decode_pass first_decode) := by
  have hb : (true && needs_retry min_conf (run_decode_pass first_decode)) = true := by
    rw [h]
    rfl
  unfold run_two_pass
  dsimp only
  rw [hb, if_pos rfl]
  by_cases hc : decode_quality_score (run_decode_pass first_decode)
      ≤ decode_quality_score (run_decode_pass (retry_decode_options first_decode))
    ∨ ((run_decode_pass first_decode).text = ""
       ∧ ¬ (run_decode_pass (retry_decode_options first_decode)).text = "")
  · rw [if_pos (by
      simp only [Bool.or_eq_true, Bool.and_eq_true, decide_eq_true_eq]
      exact hc)]
    refine ⟨rfl, le_max_left _ _, le_max_left _ _, rfl, rfl, iff_of_true rfl hc,
      fun hn => absurd hc hn⟩
  · rw [if_neg (by
      simp only [Bool.or_eq_true, Bool.and_eq_true, decide_eq_true_eq]
      exact hc)]
    have hne : ¬ run_decode_pass first_decode
        = run_decode_pass (retry_decode_options first_decode) := by
      intro he
      exact hc (Or.inl (le_of_eq (congrArg decode_quality_score he)))
    exact ⟨rfl, le_max_left _ _, le_max_left _ _, rfl, rfl, iff_of_false hne hc,
      fun _ => rfl⟩

/-- C2 witness: the low-confidence first pass (0.2 < 0.35) triggers the
retry, and the oracle is invoked on exactly the first options and the
raised-effort options. -/
theorem two_pass_retry_policy_witness :
    needs_retry (35/100) (twoPassOracle balancedOpts) = true
      ∧ (run_two_pass twoPassOracle balancedOpts (35/100) true).2
          = [balancedOpts, retry_decode_options balancedOpts] := by
  have hNR : needs_retry (35/100) (twoPassOracle balancedOpts) = true := by
    show needs_retry (35/100) lowConfPass = true
    unfold needs_retry
    have h2 : decide (lowConfPass.confidence < 35/100) = true :=
      decide_eq_true (by norm_num [lowConfPass])
    rw [h2]
    simp
  exact ⟨hNR, (two_pass_retry_policy twoPassOracle balancedOpts (35/100) hNR).1⟩

/-! ## Claim C5 -/

/-- C5: every `TranscriptionResult` that `transcribe_audio_bytes` returns
with `accepted = true` has non-empty text and confidence at least the
configured `min_confidence_for_accept`. -/
theorem accepted_implies_nonempty_and_confident
    (run_decode_pass : DecodeOptions → DecodePass) (first_decode : DecodeOptions)
    (min_conf : ℚ) (retry_enabled telemetry_enabled telemetry_write_fails : Bool)
    (latency duration : ℚ) (model device : String) (r : TranscriptionResult)
    (hok : transcribe_audio_bytes run_decode_pass first_decode min_conf retry_enabled
        telemetry_enabled telemetry_write_fails latency duration model device
      = Except.ok r)
    (hacc : r.accepted = true) :
    ¬ r.text = "" ∧ min_conf ≤ r.confidence := by
  unfold transcribe_audio_bytes at hok
  dsimp only at hok
  split at hok
  · exact Except.noConfusion hok
  · injection hok with hr
    subst hr
    dsimp only at hacc ⊢
    rw [Bool.and_eq_true, decide_eq_true_eq, decide_eq_true_eq] at hacc
    exact hacc

/-- The result record `transcribe_audio_bytes` builds for the clean pass
with retries off and telemetry off; its `accepted` field is the source's
`bool(text) and confidence >= min_conf` expression. -/
def acceptedResult : TranscriptionResult :=
  { text := cleanPass.text
    accepted := decide (¬ cleanPass.text = "") && decide ((35:ℚ)/100 ≤ cleanPass.confidence)
    confidence := cleanPass.confidence
    avg_logprob := cleanPass.avg_logprob
    no_speech_prob := cleanPass.no_speech_prob
    latency_sec := 0
    duration_audio_sec := 1
    model := "small"
    device := "cpu"
    warning := if decide (¬ cleanPass.text = "") && decide ((35:ℚ)/100 ≤ cleanPass.confidence)
      then "" else "Dusuk guvenli sonuc, lutfen tekrar deneyin." }

/-- C5 witness: the clean 0.9-confidence pass is returned accepted, with
non-empty text and confidence at least 0.35. -/
theorem accepted_implies_witness :
    ¬ acceptedResult.text = "" ∧ (35:ℚ)/100 ≤ acceptedResult.confidence := by
  have hacc : acceptedResult.accepted = true := by
    show (decide (¬ cleanPass.text = "") && decide ((35:ℚ)/100 ≤ cleanPass.confidence)) = true
    have h1 : decide (¬ cleanPass.text = "") = true := by decide
    have h2 : decide ((35:ℚ)/100 ≤ cleanPass.confidence) = true :=
      decide_eq_true (by norm_num [cleanPass])
    rw [h1, h2]
    rfl
  exact accepted_implies_nonempty_and_confident (fun _ => cleanPass) balancedOpts
    (35/100) false false false 0 1 "small" "cpu" acceptedResult rfl hacc

/-! ## Claim C1 -/

/-- C1: the claim states a telemetry write failure never fails the
transcription call, and the spec is the intent — but the code has no
exception handler around the telemetry append, so the failure propagates:
with decoding succeeding (the clean 0.9-confidence pass) and telemetry
enabled, a raised write error makes `transcribe_audio_bytes` fail instead
of returning its result, while the identical call without the write
failure returns the result. -/
theorem telemetry_failure_propagates :
    transcribe_audio_bytes (fun _ => cleanPass) balancedOpts (35/100) false true true
        0 1 "small" "cpu" = Except.error "telemetry write failed"
      ∧ transcribe_audio_bytes (fun _ => cleanPass) balancedOpts (35/100) false true false
          0 1 "small" "cpu" = Except.ok acceptedResult :=
  ⟨rfl, rfl⟩

/-! ## Claim C4 -/

/-- C4 counterexample: the ping request yields exactly one response line,
but its JSON object carries five keys — `respond` always includes an
`error` key (null on success) — so the object is not exactly
`{"type":"response","id":1,"ok":true,"result":{"pong":true}}` with no
additional keys. -/
theorem ping_response_has_error_key :
    (handle_request noMethods pingRequest).length = 1
      ∧ jsonKeys ((handle_request noMethods pingRequest).headD JValue.null)
          = ["type", "id", "ok", "result", "error"]
      ∧ ¬ jsonKeys ((handle_request noMethods pingRequest).headD JValue.null)
          = ["type", "id", "ok", "result"] := by
  refine ⟨rfl, rfl, ?_⟩
  decide

/-- C4 amended: the ping request yields exactly one response line whose
JSON object is exactly `{"type":"response","id":1,"ok":true,`
`"result":{"pong":true},"error":null}`, with no additional keys, whatever
the stateful methods would do. -/
theorem ping_response_exact (do_method : String → JValue → Except String JValue) :
    handle_request do_method pingRequest
      = [JValue.obj
          [("type", JValue.str "response"), ("id", JValue.num 1),
           ("ok", JValue.bool true),
           ("result", JValue.obj [("pong", JValue.bool true)]),
           ("error", JValue.null)]] :=
  rfl

/-! ## Claim C6 -/

/-- C6: for every chunk source, RMS oracle, stop-flag schedule and
configuration with a nonnegative `max_record_seconds`, the capture loop
reads at most `floor(max_record_seconds × sample_rate / chunk_size)`
chunks; the loop is a total function, so it terminates on every source,
in particular on one that is loud forever. -/
theorem record_audio_chunk_cap (read : ℕ → List ℤ) (rms_of : List ℤ → ℚ)
    (stop_at : ℕ → Bool) (cfg : RecordConfig)
    (h : 0 ≤ cfg.max_record_seconds) :
    (record_audio read rms_of stop_at cfg).length
      ≤ (⌊cfg.max_record_seconds * (SAMPLE_RATE : ℚ) / (CHUNK : ℚ)⌋).toNat := by
  have hx : 0 ≤ cfg.max_record_seconds * (SAMPLE_RATE : ℚ) / (CHUNK : ℚ) := by
    apply div_nonneg
    · exact mul_nonneg h (by norm_num [SAMPLE_RATE])
    · norm_num [CHUNK]
  have hpy : py_int (cfg.max_record_seconds * (SAMPLE_RATE : ℚ) / (CHUNK : ℚ))
      = ⌊cfg.max_record_seconds * (SAMPLE_RATE : ℚ) / (CHUNK : ℚ)⌋ := by
    unfold py_int
    rw [if_pos hx]
  unfold record_audio
  dsimp only
  rw [hpy]
  have := record_loop_frames_le read rms_of stop_at cfg
    (max 1 (py_int (cfg.silence_calibration_seconds * (SAMPLE_RATE : ℚ) / (CHUNK : ℚ))))
    (py_int (cfg.silence_duration * (SAMPLE_RATE : ℚ) / (CHUNK : ℚ)))
    ((⌊cfg.max_record_seconds * (SAMPLE_RATE : ℚ) / (CHUNK : ℚ)⌋).toNat) 0
    { frames := [], silence_counter := 0
      calibrated_threshold := cfg.silence_threshold
      calibration_values := [], has_speech := false }
  simpa using this

/-- C6 witness: with the one-second cap, the default thresholds, a chunk
source that is loud forever and a stop flag never set, the recorder still
reads at most 15 chunks. -/
theorem record_audio_chunk_cap_witness :
    (0:ℚ) ≤ shortCapConfig.max_record_seconds
      ∧ (record_audio constChunk loudRms neverStop shortCapConfig).length
          ≤ (⌊shortCapConfig.max_record_seconds * (SAMPLE_RATE : ℚ) / (CHUNK : ℚ)⌋).toNat :=
  ⟨by norm_num [shortCapConfig],
   record_audio_chunk_cap constChunk loudRms neverStop shortCapConfig
     (by norm_num [shortCapConfig])⟩

/-! ## Claim C7 -/

/-- Decoding an even run of zero bytes yields zero samples. -/
theorem bytes_to_int16_zeros (n : ℕ) :
    bytes_to_int16 (List.replicate (2 * n) 0) = List.replicate n (0 : ℤ) := by
  induction n with
  | zero => rfl
  | succ k ih =>
    have h2 : 2 * (k + 1) = (2 * k) + 1 + 1 := by ring
    rw [h2, List.replicate_succ, List.replicate_succ, bytes_to_int16]
    rw [List.replicate_succ, ih]
    norm_num

/-- Encoding zero samples yields twice as many zero bytes. -/
theorem int16_to_bytes_zeros (n : ℕ) :
    int16_to_bytes (List.replicate n (0 : ℚ)) = List.replicate (2 * n) 0 := by
  induction n with
  | zero => rfl
  | succ k ih =>
    have h2 : 2 * (k + 1) = (2 * k) + 1 + 1 := by ring
    rw [List.replicate_succ, h2, List.replicate_succ, List.replicate_succ]
    unfold int16_to_bytes at ih ⊢
    rw [List.flatMap_cons, ih]
    have hc : py_int (max (-32768) (min 32767 (0:ℚ))) = 0 := by
      norm_num [py_int]
    rw [hc]
    norm_num

/-- The mean square of an all-zero sample list is zero. -/
theorem mean_square_zeros (n : ℕ) :
    mean_square (List.replicate n (0 : ℚ)) = 0 := by
  unfold mean_square
  rw [List.map_replicate]
  norm_num [List.sum_replicate]

/-- C7 counterexample: the claim's byte accounting is wrong — the byte
encoding of 1600 zero-valued int16 samples is 3200 bytes, not 1600. -/
theorem zero_samples_byte_length :
    (int16_to_bytes (List.replicate 1600 (0:ℚ))).length = 3200
      ∧ ¬ (int16_to_bytes (List.replicate 1600 (0:ℚ))).length = 1600 := by
  have h := int16_to_bytes_zeros 1600
  constructor
  · rw [h, List.length_replicate]
  · rw [h, List.length_replicate]
    norm_num

/-- C7 amended: preprocessing the 3200-byte encoding of 1600 zero-valued
int16 samples at 16 kHz with `highpass_hz = 0` and no noise suppression
returns it unchanged for every target dBFS (and every value of the
transcendental filter and gain oracles): 3200 bytes in, 3200 bytes out,
because the near-silence check short-circuits normalization. -/
theorem preprocess_zeros_unchanged (alpha_of gain_of : ℚ → ℚ → ℚ) (target : ℚ) :
    preprocess_audio_bytes alpha_of gain_of (List.replicate 3200 0) 16000 0 target false
        = List.replicate 3200 0
      ∧ (List.replicate 3200 (0:ℕ)).length = 3200 := by
  constructor
  · unfold preprocess_audio_bytes
    dsimp only
    rw [show (3200:ℕ) = 2 * 1600 from by norm_num, bytes_to_int16_zeros 1600]
    rw [List.map_replicate, Int.cast_zero]
    have hhp : highpass_filter alpha_of (List.replicate 1600 (0:ℚ)) 16000 0
        = List.replicate 1600 (0:ℚ) := by
      unfold highpass_filter
      rw [if_pos le_rfl]
    rw [hhp]
    rw [if_neg (show ¬ (false = true) from by decide)]
    have hnorm : normalize_to_dbfs gain_of (List.replicate 1600 (0:ℚ)) target
        = List.replicate 1600 (0:ℚ) := by
      unfold normalize_to_dbfs
      rw [if_neg (by simp), if_pos (by rw [mean_square_zeros]; norm_num)]
    rw [hnorm, int16_to_bytes_zeros 1600]
  · rw [List.length_replicate]

/-! ## Claim C9 -/

/-- C9: every run of the capture-cycle worker — normal completion,
too-short recording, empty transcription, or an exception escaping any
step — ends by emitting a `status_changed` event with status `ready` as
its last event and leaves the listening state cleared, through the
cleanup that runs regardless of which error occurred. -/
theorem worker_always_returns_ready (env : WorkerEnv) (s : SvcState) :
    (listen_worker env s).1.getLast? = some (WEvent.statusChanged "ready")
      ∧ (listen_worker env s).2.is_listening = false
      ∧ (listen_worker env s).2.stop_requested = false := by
  refine ⟨?_, rfl, rfl⟩
  unfold listen_worker
  dsimp only
  rw [List.getLast?_concat]

/-! ## Claim C10 -/

/-- Once the cancellation flag is clear, it stays clear along any action
suffix that contains no stop request: `start_listening` never sets it and
the worker cleanup clears it. -/
theorem stop_flag_stays_clear (q : List StateAction) :
    ∀ s : SvcState, s.stop_requested = false → StateAction.stop ∉ q →
      (run_actions s q).stop_requested = false := by
  induction q with
  | nil => intro s hs _; exact hs
  | cons a rest ih =>
    intro s hs hq
    have hq1 : ¬ a = StateAction.stop := fun he => hq (he ▸ List.mem_cons_self a rest)
    have hq2 : StateAction.stop ∉ rest := fun hm => hq (List.mem_cons_of_mem a hm)
    show (run_actions (state_step s a) rest).stop_requested = false
    apply ih _ _ hq2
    cases a with
    | start =>
      dsimp only [state_step]
      split
      · exact hs
      · rfl
    | stop => exact absurd rfl hq1
    | workerEnd => rfl

/-- C10: a stop request issued while no capture cycle is active never
cancels a cycle started afterwards. For any action history `pre` ending
with the service idle (stop requests included), after `start_listening`
spawns a cycle the cancellation flag reads false at every point of the
cycle until a stop request is issued within it. -/
theorem idle_stop_does_not_cancel_next_cycle (s0 : SvcState)
    (pre q : List StateAction)
    (hidle : (run_actions s0 pre).is_listening = false)
    (hq : StateAction.stop ∉ q) :
    (run_actions s0 (pre ++ StateAction.start :: q)).stop_requested = false := by
  unfold run_actions
  rw [List.foldl_append, List.foldl_cons]
  have hstart : (state_step (List.foldl state_step s0 pre) StateAction.start).stop_requested
      = false := by
    have h2 : (List.foldl state_step s0 pre).is_listening = false := hidle
    dsimp only [state_step]
    rw [h2]
    simp
  exact stop_flag_stays_clear q _ hstart hq

/-- C10 witness: a stop issued from idle, then a start, then a worker
cleanup — the cycle never observes the idle-time stop. -/
theorem idle_stop_witness :
    (run_actions { is_listening := false, stop_requested := false }
        [StateAction.stop]).is_listening = false
      ∧ StateAction.stop ∉ [StateAction.workerEnd]
      ∧ (run_actions { is_listening := false, stop_requested := false }
          ([StateAction.stop] ++ StateAction.start :: [StateAction.workerEnd])).stop_requested
        = false :=
  ⟨rfl, by decide,
   idle_stop_does_not_cancel_next_cycle
     { is_listening := false, stop_requested := false }
     [StateAction.stop] [StateAction.workerEnd] rfl (by decide)⟩
